import Mathlib

/-!
A verification development for the IaC classifier module
(`agents/classifier_agent.py`): the pattern screener, the response parser,
the convertibility resolver, the metrics calculator and the classification
service are embedded shallowly below.

Conventions of the embedding:
* Python floats are modelled as exact rationals (`ℚ`); Python's banker
  `round(x, n)` is modelled by `roundTo`, built on a half-to-even
  integer rounding `roundHalfEven`.
* Rational arithmetic inside executable definitions is written with
  `mkRat` / `Rat.divInt` (which the kernel can evaluate); theorems relate
  these to the ordinary field operations on `ℚ`.
* Python strings are modelled as `String`, with the character-level
  operations (`strip`, `lower`, `split`, ...) re-implemented structurally
  over `String.data` so that all definitions evaluate.
* The regex engine is not modelled: the screener is parametrised by the
  per-pattern occurrence count (`pc : String → ℕ`, the length of
  `re.findall(pattern, code)`) and the per-keyword whole-word hit test
  (`kw : String → Bool`).  Quantifying over all such functions covers the
  behaviour on every input text.
* The external reasoning service is an oracle `String → String` from the
  submitted prompt to the raw reply.
-/

/-! ## Rational helpers (kernel-evaluable) -/

/-- Multiplication on `ℚ` via `mkRat`; equals `a * b`. -/
def qmul (a b : ℚ) : ℚ := mkRat (a.num * b.num) (a.den * b.den)

/-- The rational `n / d` for natural inputs, via `mkRat`. -/
def qdivNat (n d : ℕ) : ℚ := mkRat (n : ℤ) d

/-- Half-to-even rounding of a rational to an integer, the behaviour of
Python's builtin `round` on exact values. -/
def roundHalfEven (q : ℚ) : ℤ :=
  if 2 * (q.num - Rat.floor q * (q.den : ℤ)) < (q.den : ℤ) then Rat.floor q
  else if (q.den : ℤ) < 2 * (q.num - Rat.floor q * (q.den : ℤ)) then Rat.floor q + 1
  else if Rat.floor q % 2 = 0 then Rat.floor q else Rat.floor q + 1

/-- Python's `round(q, k)`: half-to-even rounding at `k` decimal places. -/
def roundTo (k : ℕ) (q : ℚ) : ℚ :=
  Rat.divInt (roundHalfEven (mkRat (q.num * ((10 : ℕ) ^ k : ℕ)) q.den)) ((10 : ℕ) ^ k : ℕ)

/-- Python's `f"{q:.2f}"` fixed-point formatting for nonnegative `q`. -/
def fmt2 (q : ℚ) : String :=
  let n : ℤ := roundHalfEven (mkRat (q.num * 100) q.den)
  let m : ℕ := n.natAbs
  let frac : ℕ := m % 100
  (if n < 0 then "-" else "") ++ Nat.repr (m / 100) ++ "." ++
    (if frac < 10 then "0" ++ Nat.repr frac else Nat.repr frac)

/-! ## String helpers (Python semantics, structural over `String.data`) -/

/-- Python `str` whitespace as used by `str.strip()`. -/
def isPyWs (c : Char) : Bool :=
  c == ' ' || c == '\t' || c == '\n' || c == '\r' || c == '\x0b' || c == '\x0c'

/-- `str.strip()` on a character list. -/
def stripChars (l : List Char) : List Char :=
  ((l.dropWhile isPyWs).reverse.dropWhile isPyWs).reverse

/-- Python `str.strip()`. -/
def pyStrip (s : String) : String := String.mk (stripChars s.data)

/-- Python `str.lower()` (ASCII case folding, as used here). -/
def pyLower (s : String) : String := String.mk (s.data.map Char.toLower)

/-- Python `str.upper()` (ASCII case folding, as used here). -/
def pyUpper (s : String) : String := String.mk (s.data.map Char.toUpper)

/-- Number of characters, Python's `len` on `str`. -/
def strLen (s : String) : ℕ := s.data.length

/-- `pre` is a prefix of `s` (Python `str.startswith`). -/
def startsWithStr (pre s : String) : Bool := List.isPrefixOf pre.data s.data

/-- Split a character list at every newline (Python `str.split('\n')`). -/
def splitNl : List Char → List (List Char)
  | [] => [[]]
  | c :: rest =>
    if c = '\n' then [] :: splitNl rest
    else
      match splitNl rest with
      | [] => [[c]]
      | l :: ls => (c :: l) :: ls

/-- `'sep'.join(parts)`. -/
def joinSep (sep : String) : List String → String
  | [] => ""
  | h :: t => t.foldl (fun acc s => acc ++ sep ++ s) h

/-- `line.lstrip('* ')`. -/
def lstripStarSpace (s : String) : String :=
  String.mk (s.data.dropWhile (fun c => c == '*' || c == ' '))

/-- `re.sub(r"[*_]+", "", s)`: delete every `*` and `_` character. -/
def dropStarsUnderscores (s : String) : String :=
  String.mk (s.data.filter (fun c => !(c == '*' || c == '_')))

/-- Split at the first colon (`str.split(':', 1)` when a colon exists). -/
def splitFirstColon : List Char → Option (List Char × List Char)
  | [] => none
  | c :: rest =>
    if c = ':' then some ([], rest)
    else (splitFirstColon rest).map (fun p => (c :: p.1, p.2))

/-! ## Data model (`PatternAnalysis`, `ClassificationResult`) -/

/-- The `PatternAnalysis` dataclass. -/
structure PatternAnalysis where
  likely_iac : Bool
  detected_tool : String
  confidence_score : ℚ
  pattern_matches : List (String × ℕ)
  strongest_indicators : List String
deriving DecidableEq, Repr

/-- The dataclass defaults of `PatternAnalysis`. -/
def defaultPatternAnalysis : PatternAnalysis :=
  ⟨false, "unknown", 0, [], []⟩

/-- The `ClassificationResult` dataclass. -/
structure ClassificationResult where
  classification : String
  summary : String
  detailed_analysis : String
  resources : List String
  key_operations : List String
  dependencies : String
  configuration_details : String
  complexity_level : String
  convertible : Bool
  conversion_notes : String
  pattern_analysis : PatternAnalysis
  confidence_source : String
  override_applied : Bool
  override_reason : String
  original_ai_decision : Option Bool
deriving DecidableEq, Repr

/-- The dataclass defaults of `ClassificationResult`; note that the
source declares `convertible: bool = True`. -/
def defaultClassificationResult : ClassificationResult :=
  { classification := ""
    summary := ""
    detailed_analysis := ""
    resources := []
    key_operations := []
    dependencies := ""
    configuration_details := ""
    complexity_level := ""
    convertible := true
    conversion_notes := ""
    pattern_analysis := defaultPatternAnalysis
    confidence_source := "ai_only"
    override_applied := false
    override_reason := ""
    original_ai_decision := none }

/-! ## Pattern rule table and screener (`_pattern_based_screening`) -/

/-- The `iac_patterns` table: tool, regex pattern sources, keywords, in the
source's insertion order. -/
def iacPatterns : List (String × List String × List String) :=
  [ ("terraform",
     ["resource\\s+\"[\\w_-]+\"", "provider\\s+\"[\\w_-]+\"", "variable\\s+\"[\\w_-]+\"",
      "data\\s+\"[\\w_-]+\"", "output\\s+\"[\\w_-]+\"", "module\\s+\"[\\w_-]+\""],
     ["terraform", ".tf", "hcl"]),
    ("chef",
     ["cookbook\\s+[\"\x27][\\w_-]+[\"\x27]", "recipe\\s+[\"\x27][\\w_-]+[\"\x27]",
      "package\\s+[\"\x27][\\w_-]+[\"\x27].*do", "service\\s+[\"\x27][\\w_-]+[\"\x27].*do",
      "file\\s+[\"\x27][\\w/_.-]+[\"\x27].*do", "action\\s+:(install|enable|start|stop|restart)"],
     ["chef", "cookbook", "recipe", "do\\s+action"]),
    ("puppet",
     ["class\\s+[\\w:_-]+", "define\\s+[\\w:_-]+", "package\\s*\\\x7b[^\x7d]*\\\x7d",
      "service\\s*\\\x7b[^\x7d]*\\\x7d", "file\\s*\\\x7b[^\x7d]*\\\x7d",
      "ensure\\s*=>\\s*(present|installed|running|stopped)", "notify\\s*=>\\s*Service\\["],
     ["puppet", "manifests", "ensure =>", "notify =>"]),
    ("ansible",
     ["^hosts:\\s*\\w+", "^tasks:\\s*$", "^\\s*-\\s+name:\\s*", "playbook", "roles:\\s*$", "vars:\\s*$"],
     ["ansible", "playbook", "hosts:", "tasks:"]),
    ("cloudformation",
     ["AWSTemplateFormatVersion", "Resources:\\s*$", "Parameters:\\s*$", "Outputs:\\s*$", "Type:\\s*AWS::"],
     ["cloudformation", "aws template", "resources:"]),
    ("docker",
     ["^FROM\\s+[\\w/:.-]+", "^RUN\\s+", "^COPY\\s+", "^ADD\\s+", "^WORKDIR\\s+",
      "^EXPOSE\\s+\\d+", "^CMD\\s+", "^ENTRYPOINT\\s+"],
     ["dockerfile", "docker", "container"]),
    ("kubernetes",
     ["apiVersion:\\s*[\\w/]+", "kind:\\s*\\w+", "metadata:\\s*$", "spec:\\s*$", "selector:\\s*$"],
     ["kubernetes", "kubectl", "k8s", "apiversion"]),
    ("bash",
     ["#!/bin/bash", "#!/bin/sh", "systemctl\\s+(start|stop|enable|disable)",
      "apt-get\\s+(install|update|upgrade)", "yum\\s+(install|update)",
      "service\\s+\\w+\\s+(start|stop|restart)"],
     ["bash", "shell", "systemctl", "service"]),
    ("powershell",
     ["Install-WindowsFeature", "New-Item\\s+.*-ItemType", "Set-Service", "Start-Service",
      "Get-Service", "\\$\\w+\\s*=\\s*"],
     ["powershell", "install-windowsfeature", "set-service"]) ]

/-- Per-tool score: the sum of the occurrence counts of its patterns plus
one per keyword present (`pc` and `kw` abstract the regex engine applied
to the input text). -/
def toolScore (pc : String → ℕ) (kw : String → Bool) (pats kws : List String) : ℕ :=
  (pats.map pc).sum + (kws.filter kw).length

/-- The `matches` dictionary: tool → score, in table order. -/
def matchesList (pc : String → ℕ) (kw : String → Bool) : List (String × ℕ) :=
  iacPatterns.map (fun e => (e.1, toolScore pc kw e.2.1 e.2.2))

/-- The `found_indicators` list, in discovery order. -/
def foundIndicators (pc : String → ℕ) (kw : String → Bool) : List String :=
  (iacPatterns.map (fun e =>
    (e.2.1.filter (fun p => decide (0 < pc p))).map (fun p => e.1 ++ ":" ++ p) ++
    (e.2.2.filter kw).map (fun k => e.1 ++ ":keyword:" ++ k))).flatten

/-- One comparison step of Python's `max`: keep the current best unless the
next element's score is strictly greater (ties keep the earlier element). -/
def pickStep (best x : String × ℕ) : String × ℕ := if best.2 < x.2 then x else best

/-- Python's `max(items, key=score)`: the first element with maximal score. -/
def pickBest : List (String × ℕ) → String × ℕ
  | [] => ("unknown", 0)
  | h :: t => t.foldl pickStep h

/-- The best (first maximal) score over the table. -/
def bestScore (pc : String → ℕ) (kw : String → Bool) : ℕ :=
  (pickBest (matchesList pc kw)).2

/-- The total score over the table. -/
def totalScore (pc : String → ℕ) (kw : String → Bool) : ℕ :=
  ((matchesList pc kw).map Prod.snd).sum

/-- `_pattern_based_screening`, parametrised by the regex-count abstraction. -/
def pattern_based_screening (pc : String → ℕ) (kw : String → Bool) : PatternAnalysis :=
  let ms := matchesList pc kw
  let best := pickBest ms
  let total := ((ms.map Prod.snd).sum : ℕ)
  let confidence : ℚ :=
    if best.2 = 0 then 0
    else qmul (qdivNat best.2 (max total 1)) (min (qdivNat best.2 5) 1)
  { likely_iac := decide (0 < best.2)
    detected_tool := if 0 < best.2 then best.1 else "unknown"
    confidence_score := roundTo 3 confidence
    pattern_matches := ms
    strongest_indicators := (foundIndicators pc kw).take 5 }

/-! ## Prompt builders (`_build_enhanced_prompt`, `_build_standard_prompt`) -/

/-- The canonical chef syntax examples of `tool_examples`. -/
def chefExampleText : String :=
  "\nCHEF CODE PATTERNS TO RECOGNIZE:\n- cookbook \x27apache2\x27\n- package \x27httpd\x27 do action :install end\n- service \x27apache2\x27 do action [:enable, :start] end\n- file \x27/etc/config\x27 do content \x27data\x27 end\n            "

/-- The canonical puppet syntax examples of `tool_examples`. -/
def puppetExampleText : String :=
  "\nPUPPET CODE PATTERNS TO RECOGNIZE:\n- class apache::install \x7b package \x7b \x27apache2\x27: ensure => installed \x7d \x7d\n- service \x7b \x27apache2\x27: ensure => running, enable => true \x7d\n- file \x7b \x27/etc/apache2/apache2.conf\x27: ensure => present \x7d\n            "

/-- The canonical terraform syntax examples of `tool_examples`. -/
def terraformExampleText : String :=
  "\nTERRAFORM CODE PATTERNS TO RECOGNIZE:\n- resource \"aws_instance\" \"web\" \x7b ami = \"ami-12345\" \x7d\n- provider \"aws\" \x7b region = \"us-east-1\" \x7d\n- variable \"instance_type\" \x7b default = \"t2.micro\" \x7d\n            "

/-- The `tool_examples` dictionary of `_build_enhanced_prompt`. -/
def toolExamples : List (String × String) :=
  [ ("chef", chefExampleText),
    ("puppet", puppetExampleText),
    ("terraform", terraformExampleText) ]

/-- The `context` block of the enhanced prompt: nonempty exactly when the
detected tool has a canonical-examples entry. -/
def contextBlock (pa : PatternAnalysis) : String :=
  match toolExamples.lookup pa.detected_tool with
  | some ex =>
      "\nDETECTED TOOL: " ++ pyUpper pa.detected_tool ++ " (confidence: " ++
        fmt2 pa.confidence_score ++ ")\nPattern indicators found: " ++
        joinSep ", " (pa.strongest_indicators.take 3) ++ "\n\n" ++ ex ++ "\n"
  | none => ""

/-- The fixed output-contract tail of the enhanced prompt. -/
def enhancedTail : String :=
  "\n\nProvide your analysis in this EXACT format:\n\nTool/Language: [The actual tool/language you identify from the code syntax]\nSummary: [Concise summary of what this code does]\nDetailed Analysis: [Technical analysis of the infrastructure automation]\nResources/Components:\n- [Infrastructure resource 1]\n- [Infrastructure resource 2]\nKey Operations:\n- [Key operation 1]\n- [Key operation 2]\nDependencies: [External dependencies and requirements]\nConfiguration Details: [Important configuration aspects]\nComplexity Level: [Low/Medium/High/Very High]\nConvertible: [YES/NO - can this be converted to Ansible?]\nConversion Notes: [How to convert or why not convertible]"

/-- `_build_enhanced_prompt`. -/
def build_enhanced_prompt (code : String) (pa : PatternAnalysis) : String :=
  contextBlock pa ++ "\n\nAnalyze this code for Ansible conversion potential:\n\n<CODE>\n" ++
    code ++ "\n</CODE>" ++ enhancedTail

/-- `_build_standard_prompt`. -/
def build_standard_prompt (code : String) : String :=
  "Analyze this code for Ansible conversion potential:\n\n<CODE>\n" ++ code ++
    "\n</CODE>\n\nProvide your analysis in this EXACT format:\n\nTool/Language: [The actual tool/language you identify]\nSummary: [Concise summary]\nDetailed Analysis: [Technical analysis]\nResources/Components:\n- [Resource 1]\n- [Resource 2]\nKey Operations:\n- [Operation 1]\n- [Operation 2]\nDependencies: [Dependencies]\nConfiguration Details: [Configuration aspects]\nComplexity Level: [Low/Medium/High/Very High]\nConvertible: [YES/NO]\nConversion Notes: [Conversion approach or reasoning]"

/-! ## Response parser (`_format_agent_response` and helpers) -/

/-- The ten section identifiers of the output contract. -/
inductive SectionId
  | classification
  | summary
  | detailed_analysis
  | resources
  | key_operations
  | dependencies
  | configuration_details
  | complexity_level
  | convertible
  | conversion_notes
deriving DecidableEq, Repr

/-- The `section_patterns` label table of `_identify_section_type`. -/
def sectionLabels : List (String × SectionId) :=
  [ ("tool/language:", SectionId.classification),
    ("summary:", SectionId.summary),
    ("detailed analysis:", SectionId.detailed_analysis),
    ("resources/components:", SectionId.resources),
    ("key operations:", SectionId.key_operations),
    ("dependencies:", SectionId.dependencies),
    ("configuration details:", SectionId.configuration_details),
    ("complexity level:", SectionId.complexity_level),
    ("convertible:", SectionId.convertible),
    ("conversion notes:", SectionId.conversion_notes) ]

/-- `_identify_section_type`. -/
def identify_section_type (line : String) : Option SectionId :=
  let clean := pyLower (pyStrip (lstripStarSpace line))
  (sectionLabels.find? (fun p => startsWithStr p.1 clean)).map Prod.snd

/-- `_extract_line_value`. -/
def extract_line_value (line : String) : String :=
  let cleaned := pyStrip (dropStarsUnderscores line)
  match splitFirstColon cleaned.data with
  | some p => pyStrip (String.mk p.2)
  | none => ""

/-- A word character in the sense of the regex `\b` boundary. -/
def isWordChar (c : Char) : Bool := c.isAlphanum || c == '_'

/-- The character before the match window (if any) is not a word character. -/
def boundaryOkB : Option Char → Bool
  | none => true
  | some p => !isWordChar p

/-- The character after the match window (if any) is not a word character. -/
def headBoundaryOkB : List Char → Bool
  | [] => true
  | n :: _ => !isWordChar n

/-- Scan for a word-bounded, case-insensitive occurrence of `yes`
(`re.search(r"\byes\b", text, re.I)`); `prev` is the character before the
scan position. -/
def hasWordYesAux : Option Char → List Char → Bool
  | _, [] => false
  | prev, c :: rest =>
    (match rest with
     | e :: s :: rest2 =>
        c.toLower == 'y' && e.toLower == 'e' && s.toLower == 's' &&
        boundaryOkB prev && headBoundaryOkB rest2
     | _ => false) ||
    hasWordYesAux (some c) rest

/-- `_parse_yes_no`. -/
def parse_yes_no (text : String) : Bool :=
  if text = "" then false else hasWordYesAux none text.data

/-- One line of the list-section accumulation of `_populate_result_section`. -/
def bulletItem (l : String) : Option String :=
  let t := pyStrip l
  if startsWithStr "-" t || startsWithStr "•" t || startsWithStr "*" t then
    some (pyStrip (String.mk t.data.tail))
  else if t ≠ "" && !startsWithStr "[" t then some t
  else none

/-- `_populate_result_section`. -/
def populate_result_section (r : ClassificationResult) (sec : SectionId)
    (content : List String) : ClassificationResult :=
  match content with
  | [] => r
  | c0 :: _ =>
    match sec with
    | SectionId.classification => { r with classification := pyStrip c0 }
    | SectionId.summary => { r with summary := pyStrip (joinSep " " content) }
    | SectionId.detailed_analysis => { r with detailed_analysis := pyStrip (joinSep " " content) }
    | SectionId.dependencies => { r with dependencies := pyStrip (joinSep " " content) }
    | SectionId.configuration_details =>
        { r with configuration_details := pyStrip (joinSep " " content) }
    | SectionId.complexity_level => { r with complexity_level := pyStrip (joinSep " " content) }
    | SectionId.conversion_notes => { r with conversion_notes := pyStrip (joinSep " " content) }
    | SectionId.resources =>
        { r with resources := ((content.filterMap bulletItem).map pyStrip).filter (fun s => s ≠ "") }
    | SectionId.key_operations =>
        { r with key_operations :=
            ((content.filterMap bulletItem).map pyStrip).filter (fun s => s ≠ "") }
    | SectionId.convertible =>
        { r with convertible := parse_yes_no (pyStrip (pyLower (joinSep " " content))) }

/-- The non-blank stripped lines of the raw reply. -/
def linesOf (raw : String) : List String :=
  ((splitNl (pyStrip raw).data).map (fun l => pyStrip (String.mk l))).filter (fun s => s ≠ "")

/-- The line scanner of `_format_agent_response`. -/
def parseLoop : List String → Option SectionId → List String → ClassificationResult →
    ClassificationResult
  | [], cur, content, r =>
    match cur with
    | some s => populate_result_section r s content
    | none => r
  | line :: rest, cur, content, r =>
    match identify_section_type line with
    | some st =>
      let r2 :=
        match cur with
        | some s => populate_result_section r s content
        | none => r
      parseLoop rest (some st) [extract_line_value line] r2
    | none =>
      match cur with
      | some s => parseLoop rest (some s) (content ++ [line]) r
      | none => parseLoop rest none content r

/-- `_format_agent_response`. -/
def format_agent_response (raw : String) : ClassificationResult :=
  parseLoop (linesOf raw) none [] defaultClassificationResult

/-! ## Convertibility resolver (`_make_intelligent_decision`) -/

/-- The curated whitelist of the override branch. -/
def overrideWhitelist : List String :=
  ["chef", "puppet", "terraform", "ansible", "cloudformation"]

/-- The `override_reason` text. -/
def overrideReasonText (pa : PatternAnalysis) : String :=
  "High-confidence " ++ pa.detected_tool ++ " patterns detected (score: " ++
    fmt2 pa.confidence_score ++ ")"

/-- `_make_intelligent_decision`. -/
def make_intelligent_decision (pa : PatternAnalysis) (ai : ClassificationResult) :
    ClassificationResult :=
  let r :=
    if mkRat 7 10 ≤ pa.confidence_score ∧ pa.likely_iac = true ∧ ai.convertible = false ∧
        pa.detected_tool ∈ overrideWhitelist then
      { ai with convertible := true
                override_applied := true
                override_reason := overrideReasonText pa
                original_ai_decision := some false
                conversion_notes :=
                  ai.conversion_notes ++ " [Override Applied: " ++ overrideReasonText pa ++ "]"
                confidence_source := "pattern_override" }
    else if mkRat 4 10 ≤ pa.confidence_score then
      { ai with confidence_source := "ai_with_pattern_context" }
    else
      { ai with confidence_source := "ai_only" }
  { r with pattern_analysis := pa }

/-! ## Metrics calculator (`_add_performance_metrics`) -/

/-- Division on `ℚ` via `Rat.divInt`; equals `a / b`. -/
def qdiv (a b : ℚ) : ℚ := Rat.divInt (a.num * (b.den : ℤ)) ((a.den : ℤ) * b.num)

/-- The `_MANUAL_ESTIMATES` table (milliseconds). -/
def manualEstimates : List (String × ℚ) :=
  [ ("terraform", 300000), ("cloudformation", 300000), ("chef", 420000), ("puppet", 360000),
    ("ansible", 240000), ("bash", 180000), ("powershell", 240000), ("docker", 240000),
    ("kubernetes", 360000), ("helm", 300000), ("vagrant", 240000), ("packer", 300000),
    ("unknown", 300000) ]

/-- The performance-metrics record added to the result dictionary. -/
structure PerfMetrics where
  duration_ms : ℚ
  manual_estimate_ms : ℚ
  speedup : Option ℚ
deriving DecidableEq, Repr

/-- `_add_performance_metrics`. -/
def add_performance_metrics (classification : String) (duration_ms : ℚ) : PerfMetrics :=
  let m : ℚ := (manualEstimates.lookup (pyLower classification)).getD 300000
  let speedup : Option ℚ := if 0 < duration_ms then some (qdiv m duration_ms) else none
  { duration_ms := roundTo 2 duration_ms
    manual_estimate_ms := m
    speedup :=
      match speedup with
      | none => none
      | some s => if s = 0 then none else some (roundTo 2 s) }

/-! ## Classification service (`classify_and_summarize`, `get_json_result`,
`batch_classify`) -/

/-- `_is_valid_input`; `none` models a Python `None` argument. -/
def is_valid_input : Option String → Bool
  | none => false
  | some c => !(c == "") && !(pyStrip c == "") && decide (5 < strLen (pyStrip c))

/-- The outcome of one classification call. -/
inductive ClassifyOutcome
  | invalidInput
  | ok (result : ClassificationResult)
deriving DecidableEq, Repr

/-- One classification run: its outcome, how many times the external
reasoning service was queried, and the prompt submitted to it (if any). -/
structure ClassifyRun where
  outcome : ClassifyOutcome
  oracleCalls : ℕ
  promptSent : Option String
deriving DecidableEq, Repr

/-- `classify_and_summarize`, parametrised by the screener result on the
input text (`screen`) and the external reasoning oracle. -/
def classify_and_summarize (screen : String → PatternAnalysis) (oracle : String → String)
    (code : Option String) : ClassifyRun :=
  if is_valid_input code then
    let c := code.getD ""
    let pa := screen c
    let prompt :=
      if mkRat 3 10 ≤ pa.confidence_score then build_enhanced_prompt c pa
      else build_standard_prompt c
    let raw := oracle prompt
    let structured := format_agent_response raw
    let final := make_intelligent_decision pa structured
    { outcome := ClassifyOutcome.ok final, oracleCalls := 1, promptSent := some prompt }
  else
    { outcome := ClassifyOutcome.invalidInput, oracleCalls := 0, promptSent := none }

/-- The result envelope of `get_json_result` (the `timestamp` field,
pure wall-clock observation, is not modelled). -/
structure Envelope where
  success : Bool
  data : Option ClassificationResult
  error : Option String
  error_type : Option String
  batch_index : Option ℕ
  version : String
deriving DecidableEq, Repr

/-- `get_json_result`. -/
def get_json_result (screen : String → PatternAnalysis) (oracle : String → String)
    (code : Option String) : Envelope :=
  match (classify_and_summarize screen oracle code).outcome with
  | ClassifyOutcome.ok r =>
      { success := true, data := some r, error := none, error_type := none,
        batch_index := none, version := "4.0-config-enhanced" }
  | ClassifyOutcome.invalidInput =>
      { success := false, data := none,
        error := some "Invalid or empty code snippet provided",
        error_type := some "ClassificationError",
        batch_index := none, version := "4.0-config-enhanced" }

/-- The loop body of `batch_classify`, carrying the running index. -/
def batchAux (screen : String → PatternAnalysis) (oracle : String → String) :
    ℕ → List (Option String) → List Envelope
  | _, [] => []
  | i, c :: rest =>
    { get_json_result screen oracle c with batch_index := some i } ::
      batchAux screen oracle (i + 1) rest

/-- `batch_classify`. -/
def batch_classify (screen : String → PatternAnalysis) (oracle : String → String)
    (snippets : List (Option String)) : List Envelope :=
  batchAux screen oracle 0 snippets

/-- Witness for C10: a concrete score vector in which `chef` and `bash`
tie at the maximal score 1; the resolver picks `chef`, the earlier tool in
table order. -/
def c10_pc : String → ℕ := fun _ => 0

/-- Witness keyword-hit function for C10: only the keywords `chef` and
`bash` are present. -/
def c10_kw : String → Bool := fun k => k == "chef" || k == "bash"

/-! ## C3: how the Convertible text is decided -/

/-- The left-boundary condition of a `\b`-delimited match, relative to the
character preceding the scan window (if any). -/
def okBoundary : Option Char → Prop
  | none => True
  | some p => isWordChar p = false

/-- A word-boundary-delimited, case-insensitive occurrence of `yes` in `l`,
where `prev` is the character just before `l` (if any). -/
def AuxOcc (prev : Option Char) (l : List Char) : Prop :=
  ∃ pre c1 c2 c3 post, l = pre ++ c1 :: c2 :: c3 :: post ∧
    c1.toLower = 'y' ∧ c2.toLower = 'e' ∧ c3.toLower = 's' ∧
    ((pre = [] ∧ okBoundary prev) ∨ ∃ pre0 p, pre = pre0 ++ [p] ∧ isWordChar p = false) ∧
    (post = [] ∨ ∃ n post0, post = n :: post0 ∧ isWordChar n = false)

/-- A word-boundary-delimited, case-insensitive occurrence of `yes`:
the semantics of `re.search(r"\byes\b", text, re.I)` being truthy. -/
def WordYesOcc (l : List Char) : Prop :=
  ∃ pre c1 c2 c3 post, l = pre ++ c1 :: c2 :: c3 :: post ∧
    c1.toLower = 'y' ∧ c2.toLower = 'e' ∧ c3.toLower = 's' ∧
    (pre = [] ∨ ∃ pre0 p, pre = pre0 ++ [p] ∧ isWordChar p = false) ∧
    (post = [] ∨ ∃ n post0, post = n :: post0 ∧ isWordChar n = false)

/-- Whitespace tokenisation of a character list (Python `str.split()`),
with `acc` the reversed characters of the token currently being read. -/
def pyTokensAux : List Char → List Char → List (List Char)
  | [], acc => if acc.isEmpty then [] else [acc.reverse]
  | c :: rest, acc =>
    if isPyWs c then
      (if acc.isEmpty then pyTokensAux rest [] else acc.reverse :: pyTokensAux rest [])
    else pyTokensAux rest (c :: acc)

/-- Modelled from the spec: the canonical Convertible rule of spec section 4.3 —
take the first whitespace-delimited token of the lower-cased text and treat it
as affirmative iff it is exactly `yes`, `true`, or `1`. -/
def canonical_yes_no (text : String) : Bool :=
  match pyTokensAux (pyLower text).data [] with
  | [] => false
  | t :: _ => t == "yes".data || t == "true".data || t == "1".data

/-! ## C6: input validation -/

/-- A trivial screener used to instantiate service-level theorems. -/
def constScreen : String → PatternAnalysis := fun _ => defaultPatternAnalysis

/-- A constant external-reasoning oracle used to instantiate service-level
theorems. -/
def constOracle : String → String := fun _ => "Convertible: NO"

/-- Witness input for C1: a maximal-confidence puppet analysis. -/
def c1_fire_pa : PatternAnalysis := ⟨true, "puppet", 1, [("puppet", 6)], []⟩

/-- Witness input for C1: an AI verdict that said not convertible. -/
def c1_ai : ClassificationResult := { defaultClassificationResult with convertible := false }

/-- Counterexample input for C1: a medium-confidence chef analysis (0.5). -/
def c1_mid_pa : PatternAnalysis := ⟨true, "chef", mkRat 5 10, [("chef", 2)], ["chef:keyword:chef"]⟩

/-- Witness batch for C8: a valid snippet, an empty snippet, a valid snippet. -/
def c8_snips : List (Option String) :=
  [some "hosts: all in inventory", some "", some "FROM ubuntu base image"]

/-- Counterexample input for C9: an ansible analysis with confidence 0.73. -/
def c9_pa1 : PatternAnalysis := ⟨true, "ansible", mkRat 73 100, [], ["ansible:playbook"]⟩

/-- Second counterexample input for C9: a docker analysis with confidence
0.42 and no indicators. -/
def c9_pa2 : PatternAnalysis := ⟨true, "docker", mkRat 42 100, [], []⟩

/-- Witness input for C9: a maximal-confidence chef analysis. -/
def c9_chef_pa : PatternAnalysis := ⟨true, "chef", 1, [("chef", 6)], ["chef:keyword:chef"]⟩

/-- Witness screener for C9: always reports `c9_chef_pa`. -/
def chefScreen : String → PatternAnalysis := fun _ => c9_chef_pa


/-! ## Bridges between the kernel-evaluable arithmetic and the field
operations on `ℚ`, and properties of half-to-even rounding -/

theorem qmul_eq (a b : ℚ) : qmul a b = a * b := by
  unfold qmul
  rw [Rat.mkRat_eq_div]
  push_cast
  rw [← div_mul_div_comm, Rat.num_div_den, Rat.num_div_den]

theorem qdivNat_eq (n d : ℕ) : qdivNat n d = (n : ℚ) / d := by
  unfold qdivNat
  rw [Rat.mkRat_eq_div, Int.cast_natCast]

theorem qdiv_eq (a b : ℚ) : qdiv a b = a / b := by
  unfold qdiv
  rw [Rat.divInt_eq_div]
  rcases eq_or_ne b 0 with rfl | hb
  · simp
  · have hbnum : (b.num : ℚ) ≠ 0 := by
      exact_mod_cast fun h => hb (Rat.num_eq_zero.mp (by exact_mod_cast h))
    have hade : ((a.den : ℚ)) ≠ 0 := by
      exact_mod_cast a.den_nz
    have hbde : ((b.den : ℚ)) ≠ 0 := by
      exact_mod_cast b.den_nz
    rw [show a / b = (a.num / a.den) / (b.num / b.den) by rw [Rat.num_div_den, Rat.num_div_den]]
    push_cast
    field_simp

theorem ratFloor_eq (q : ℚ) : Rat.floor q = ⌊q⌋ := rfl

theorem fract_eq (q : ℚ) :
    q - (⌊q⌋ : ℚ) = ((q.num - ⌊q⌋ * (q.den : ℤ) : ℤ) : ℚ) / (q.den : ℚ) := by
  have hden : ((q.den : ℚ)) ≠ 0 := by exact_mod_cast q.den_nz
  have hnum : (q.num : ℚ) = q * (q.den : ℚ) := by
    nth_rewrite 2 [← Rat.num_div_den q]
    rw [div_mul_cancel₀ _ hden]
  rw [eq_div_iff hden]
  push_cast
  rw [hnum]
  ring

theorem roundHalfEven_eq_floor_or (q : ℚ) :
    roundHalfEven q = ⌊q⌋ ∨
      (roundHalfEven q = ⌊q⌋ + 1 ∧ (1 / 2 : ℚ) ≤ q - (⌊q⌋ : ℚ)) := by
  have hden : (0 : ℚ) < (q.den : ℚ) := by exact_mod_cast q.den_pos
  unfold roundHalfEven
  rw [ratFloor_eq]
  split_ifs with h1 h2 h3
  · exact Or.inl rfl
  · refine Or.inr ⟨rfl, ?_⟩
    rw [fract_eq, le_div_iff₀ hden]
    have h2q : ((q.den : ℤ) : ℚ) < ((2 * (q.num - ⌊q⌋ * (q.den : ℤ)) : ℤ) : ℚ) := by
      exact_mod_cast h2
    push_cast at h2q ⊢
    linarith
  · exact Or.inl rfl
  · refine Or.inr ⟨rfl, ?_⟩
    rw [fract_eq, le_div_iff₀ hden]
    have hle : ((q.den : ℤ) : ℚ) ≤ ((2 * (q.num - ⌊q⌋ * (q.den : ℤ)) : ℤ) : ℚ) := by
      exact_mod_cast not_lt.mp h1
    push_cast at hle ⊢
    linarith

theorem floor_le_roundHalfEven (q : ℚ) : ⌊q⌋ ≤ roundHalfEven q := by
  rcases roundHalfEven_eq_floor_or q with h | ⟨h, _⟩ <;> omega

theorem roundHalfEven_nonneg (q : ℚ) (h : 0 ≤ q) : 0 ≤ roundHalfEven q :=
  le_trans (Int.le_floor.mpr (by exact_mod_cast h)) (floor_le_roundHalfEven q)

theorem le_roundHalfEven (q : ℚ) (n : ℤ) (h : (n : ℚ) ≤ q) : n ≤ roundHalfEven q :=
  le_trans (Int.le_floor.mpr h) (floor_le_roundHalfEven q)

theorem roundHalfEven_le (q : ℚ) (n : ℤ) (h : q ≤ (n : ℚ)) : roundHalfEven q ≤ n := by
  rcases roundHalfEven_eq_floor_or q with h1 | ⟨h1, h2⟩
  · rw [h1]
    calc ⌊q⌋ ≤ ⌊(n : ℚ)⌋ := Int.floor_le_floor h
    _ = n := Int.floor_intCast n
  · rw [h1]
    by_contra hc
    push_neg at hc
    have hnf : (n : ℚ) ≤ (⌊q⌋ : ℚ) := by exact_mod_cast Int.lt_add_one_iff.mp hc
    linarith

theorem roundTo_eq (k : ℕ) (q : ℚ) :
    roundTo k q = ((roundHalfEven (q * (10 : ℚ) ^ k) : ℤ) : ℚ) / (10 : ℚ) ^ k := by
  unfold roundTo
  have hden : ((q.den : ℚ)) ≠ 0 := by exact_mod_cast q.den_nz
  have hmk : mkRat (q.num * ((10 : ℕ) ^ k : ℕ)) q.den = q * (10 : ℚ) ^ k := by
    rw [Rat.mkRat_eq_div]
    push_cast
    rw [mul_comm (q.num : ℚ), mul_div_assoc, Rat.num_div_den, mul_comm]
  rw [hmk, Rat.divInt_eq_div]
  push_cast
  rfl

theorem roundTo_nonneg (k : ℕ) (q : ℚ) (h : 0 ≤ q) : 0 ≤ roundTo k q := by
  rw [roundTo_eq]
  apply div_nonneg _ (le_of_lt (by positivity))
  exact_mod_cast roundHalfEven_nonneg _ (by positivity)

theorem roundTo_le_one (k : ℕ) (q : ℚ) (h : q ≤ 1) : roundTo k q ≤ 1 := by
  rw [roundTo_eq]
  rw [div_le_one (by positivity)]
  have hle : q * (10 : ℚ) ^ k ≤ (((10 : ℤ) ^ k : ℤ) : ℚ) := by
    push_cast
    nlinarith [pow_pos (show (0:ℚ) < 10 by norm_num) k]
  have := roundHalfEven_le (q * (10 : ℚ) ^ k) ((10 : ℤ) ^ k) hle
  exact_mod_cast this

theorem roundTo_pos (k : ℕ) (q : ℚ) (h : 1 ≤ q * (10 : ℚ) ^ k) : 0 < roundTo k q := by
  rw [roundTo_eq]
  apply div_pos _ (by positivity)
  have h1 : (1 : ℤ) ≤ roundHalfEven (q * (10 : ℚ) ^ k) :=
    le_roundHalfEven _ 1 (by exact_mod_cast h)
  exact_mod_cast lt_of_lt_of_le Int.zero_lt_one h1

theorem roundTo_zero (k : ℕ) : roundTo k 0 = 0 := by
  rw [roundTo_eq]
  rw [zero_mul]
  have : roundHalfEven 0 = 0 := by decide
  rw [this]
  simp

/-! ## Properties of the screener's argmax and score aggregation -/

theorem pickFold_spec (t : List (String × ℕ)) :
    ∀ acc : String × ℕ,
      acc.2 ≤ (t.foldl pickStep acc).2 ∧
      (∀ x ∈ t, x.2 ≤ (t.foldl pickStep acc).2) ∧
      (acc :: t).find? (fun x => x.2 == (t.foldl pickStep acc).2) =
        some (t.foldl pickStep acc) := by
  induction t with
  | nil =>
    intro acc
    refine ⟨le_refl _, ?_, ?_⟩
    · intro x hx
      simp at hx
    · simp [List.find?]
  | cons x t ih =>
    intro acc
    by_cases hx : acc.2 < x.2
    · obtain ⟨ih1, ih2, ih3⟩ := ih x
      have hfold : (x :: t).foldl pickStep acc = t.foldl pickStep x := by
        simp [List.foldl, pickStep, if_pos hx]
      rw [hfold]
      refine ⟨le_of_lt (lt_of_lt_of_le hx ih1), ?_, ?_⟩
      · intro y hy
        rcases List.mem_cons.mp hy with rfl | hy
        · exact ih1
        · exact ih2 y hy
      · have hpa : ¬ ((fun z => z.2 == (t.foldl pickStep x).2) acc = true) := by
          simp only [beq_iff_eq]
          omega
        rw [@List.find?_cons_of_neg _ (fun z => z.2 == (t.foldl pickStep x).2) acc (x :: t) hpa]
        exact ih3
    · obtain ⟨ih1, ih2, ih3⟩ := ih acc
      have hfold : (x :: t).foldl pickStep acc = t.foldl pickStep acc := by
        simp [List.foldl, pickStep, if_neg hx]
      rw [hfold]
      refine ⟨ih1, ?_, ?_⟩
      · intro y hy
        rcases List.mem_cons.mp hy with rfl | hy
        · exact le_trans (not_lt.mp hx) ih1
        · exact ih2 y hy
      · by_cases hpa : acc.2 = (t.foldl pickStep acc).2
        · have hptrue : ((fun z => z.2 == (t.foldl pickStep acc).2) acc = true) := by
            simp only [beq_iff_eq]
            exact hpa
          rw [@List.find?_cons_of_pos _ (fun z => z.2 == (t.foldl pickStep acc).2) acc t hptrue]
            at ih3
          have hacc : t.foldl pickStep acc = acc := by
            have := Option.some.inj ih3
            exact this.symm
          rw [@List.find?_cons_of_pos _ (fun z => z.2 == (t.foldl pickStep acc).2) acc
            (x :: t) hptrue, hacc]
        · have hlt : acc.2 < (t.foldl pickStep acc).2 := lt_of_le_of_ne ih1 hpa
          have hpfalse : ¬ ((fun z => z.2 == (t.foldl pickStep acc).2) acc = true) := by
            simp only [beq_iff_eq]
            exact hpa
          have hxf : ¬ ((fun z => z.2 == (t.foldl pickStep acc).2) x = true) := by
            simp only [beq_iff_eq]
            have := not_lt.mp hx
            omega
          rw [@List.find?_cons_of_neg _ (fun z => z.2 == (t.foldl pickStep acc).2) acc
            (x :: t) hpfalse,
            @List.find?_cons_of_neg _ (fun z => z.2 == (t.foldl pickStep acc).2) x t hxf]
          rw [@List.find?_cons_of_neg _ (fun z => z.2 == (t.foldl pickStep acc).2) acc
            t hpfalse] at ih3
          exact ih3

theorem pickBest_spec (l : List (String × ℕ)) (h : l ≠ []) :
    (∀ x ∈ l, x.2 ≤ (pickBest l).2) ∧
    l.find? (fun x => x.2 == (pickBest l).2) = some (pickBest l) := by
  match l with
  | [] => exact absurd rfl h
  | a :: t =>
    obtain ⟨h1, h2, h3⟩ := pickFold_spec t a
    refine ⟨?_, h3⟩
    intro x hx
    rcases List.mem_cons.mp hx with rfl | hx
    · exact h1
    · exact h2 x hx

theorem matchesList_ne_nil (pc : String → ℕ) (kw : String → Bool) :
    matchesList pc kw ≠ [] := by
  simp [matchesList, iacPatterns]

theorem matchesList_length (pc : String → ℕ) (kw : String → Bool) :
    (matchesList pc kw).length = 9 := by
  simp [matchesList, iacPatterns]

theorem le_bestScore (pc : String → ℕ) (kw : String → Bool) :
    ∀ x ∈ matchesList pc kw, x.2 ≤ bestScore pc kw :=
  (pickBest_spec _ (matchesList_ne_nil pc kw)).1

theorem pickBest_mem (pc : String → ℕ) (kw : String → Bool) :
    pickBest (matchesList pc kw) ∈ matchesList pc kw :=
  List.mem_of_find?_eq_some (pickBest_spec _ (matchesList_ne_nil pc kw)).2

theorem bestScore_le_totalScore (pc : String → ℕ) (kw : String → Bool) :
    bestScore pc kw ≤ totalScore pc kw := by
  have hmem : bestScore pc kw ∈ (matchesList pc kw).map Prod.snd :=
    List.mem_map_of_mem Prod.snd (pickBest_mem pc kw)
  exact List.single_le_sum (fun _ _ => Nat.zero_le _) _ hmem

theorem totalScore_le_nine_bestScore (pc : String → ℕ) (kw : String → Bool) :
    totalScore pc kw ≤ 9 * bestScore pc kw := by
  have hb : ∀ y ∈ (matchesList pc kw).map Prod.snd, y ≤ bestScore pc kw := by
    intro y hy
    obtain ⟨x, hx, rfl⟩ := List.mem_map.mp hy
    exact le_bestScore pc kw x hx
  have := List.sum_le_card_nsmul _ _ hb
  rw [List.length_map, matchesList_length] at this
  simpa [totalScore] using this

theorem bestScore_eq_zero_iff (pc : String → ℕ) (kw : String → Bool) :
    bestScore pc kw = 0 ↔ totalScore pc kw = 0 := by
  constructor
  · intro h
    apply List.sum_eq_zero
    intro y hy
    obtain ⟨x, hx, rfl⟩ := List.mem_map.mp hy
    have := le_bestScore pc kw x hx
    omega
  · intro h
    have := bestScore_le_totalScore pc kw
    omega

theorem confidence_score_shape (pc : String → ℕ) (kw : String → Bool) :
    (pattern_based_screening pc kw).confidence_score =
      roundTo 3 (if bestScore pc kw = 0 then 0
        else ((bestScore pc kw : ℚ) / ((max (totalScore pc kw) 1 : ℕ) : ℚ)) *
          min ((bestScore pc kw : ℚ) / 5) 1) := by
  simp only [pattern_based_screening, bestScore, totalScore]
  congr 1
  split_ifs with h
  · rfl
  · rw [qmul_eq, qdivNat_eq, qdivNat_eq]
    norm_num

/-- C5: for every score vector produced by the rule table on an input text,
the screener's `confidence_score` lies in `[0, 1]`, equals `0` exactly when
the total score is `0`, and is `round(dominance * strength, 3)` when the
best score is nonzero. -/
theorem c5_confidence_score_range (pc : String → ℕ) (kw : String → Bool) :
    (0 ≤ (pattern_based_screening pc kw).confidence_score ∧
      (pattern_based_screening pc kw).confidence_score ≤ 1) ∧
    ((pattern_based_screening pc kw).confidence_score = 0 ↔ totalScore pc kw = 0) ∧
    (pattern_based_screening pc kw).confidence_score =
      (if bestScore pc kw = 0 then 0
       else roundTo 3 (((bestScore pc kw : ℚ) / ((max (totalScore pc kw) 1 : ℕ) : ℚ)) *
         min ((bestScore pc kw : ℚ) / 5) 1)) := by
  have hcs := confidence_score_shape pc kw
  by_cases hb : bestScore pc kw = 0
  · rw [hcs, if_pos hb, roundTo_zero]
    refine ⟨⟨le_refl 0, zero_le_one⟩, ?_, ?_⟩
    · simp [(bestScore_eq_zero_iff pc kw).mp hb]
    · rw [if_pos hb]
  · have hb1 : 1 ≤ bestScore pc kw := Nat.one_le_iff_ne_zero.mpr hb
    have htz : totalScore pc kw ≠ 0 := fun h => hb ((bestScore_eq_zero_iff pc kw).mpr h)
    have hmaxt : max (totalScore pc kw) 1 = totalScore pc kw :=
      Nat.max_eq_left (Nat.one_le_iff_ne_zero.mpr htz)
    have ht1 : (0 : ℚ) < ((max (totalScore pc kw) 1 : ℕ) : ℚ) := by
      rw [hmaxt]
      exact_mod_cast Nat.pos_of_ne_zero htz
    have hble : ((bestScore pc kw : ℕ) : ℚ) ≤ ((max (totalScore pc kw) 1 : ℕ) : ℚ) := by
      exact_mod_cast le_trans (bestScore_le_totalScore pc kw) (le_max_left _ 1)
    have hdom0 : (0 : ℚ) ≤ (bestScore pc kw : ℚ) / ((max (totalScore pc kw) 1 : ℕ) : ℚ) :=
      div_nonneg (by positivity) ht1.le
    have hdom1 : (bestScore pc kw : ℚ) / ((max (totalScore pc kw) 1 : ℕ) : ℚ) ≤ 1 :=
      (div_le_one ht1).mpr hble
    have hstr0 : (0 : ℚ) ≤ min ((bestScore pc kw : ℚ) / 5) 1 :=
      le_min (by positivity) zero_le_one
    have hconf0 : (0 : ℚ) ≤ ((bestScore pc kw : ℚ) / ((max (totalScore pc kw) 1 : ℕ) : ℚ)) *
        min ((bestScore pc kw : ℚ) / 5) 1 := mul_nonneg hdom0 hstr0
    have hconf1 : ((bestScore pc kw : ℚ) / ((max (totalScore pc kw) 1 : ℕ) : ℚ)) *
        min ((bestScore pc kw : ℚ) / 5) 1 ≤ 1 :=
      mul_le_one₀ hdom1 hstr0 (min_le_right _ _)
    have h9 : ((totalScore pc kw : ℕ) : ℚ) ≤ 9 * (bestScore pc kw : ℚ) := by
      exact_mod_cast totalScore_le_nine_bestScore pc kw
    have hdom9 : (1 / 9 : ℚ) ≤ (bestScore pc kw : ℚ) / ((max (totalScore pc kw) 1 : ℕ) : ℚ) := by
      rw [le_div_iff₀ ht1, hmaxt]
      linarith
    have hstr5 : (1 / 5 : ℚ) ≤ min ((bestScore pc kw : ℚ) / 5) 1 := by
      have : (1 : ℚ) ≤ (bestScore pc kw : ℚ) := by exact_mod_cast hb1
      exact le_min (by linarith) (by norm_num)
    have hconf45 : (1 / 45 : ℚ) ≤ ((bestScore pc kw : ℚ) /
        ((max (totalScore pc kw) 1 : ℕ) : ℚ)) * min ((bestScore pc kw : ℚ) / 5) 1 := by
      have := mul_le_mul hdom9 hstr5 (by norm_num) hdom0
      linarith
    have hpos : 0 < roundTo 3 (((bestScore pc kw : ℚ) /
        ((max (totalScore pc kw) 1 : ℕ) : ℚ)) * min ((bestScore pc kw : ℚ) / 5) 1) := by
      apply roundTo_pos
      nlinarith
    rw [hcs, if_neg hb]
    refine ⟨⟨roundTo_nonneg _ _ hconf0, roundTo_le_one _ _ hconf1⟩, ?_, ?_⟩
    · constructor
      · intro h0
        exact absurd h0 (ne_of_gt hpos)
      · intro h0
        exact absurd h0 htz
    · rw [if_neg hb]

/-- C10: whenever the best score is positive (in particular whenever two or
more tools tie at the maximal score), `detected_tool` is the first tool in
the rule table's insertion order attaining the maximal score. -/
theorem c10_tie_goes_to_table_order (pc : String → ℕ) (kw : String → Bool)
    (h : 0 < bestScore pc kw) :
    (matchesList pc kw).find? (fun x => x.2 == bestScore pc kw) =
      some ((pattern_based_screening pc kw).detected_tool, bestScore pc kw) := by
  have h3 := (pickBest_spec (matchesList pc kw) (matchesList_ne_nil pc kw)).2
  have hdt : (pattern_based_screening pc kw).detected_tool =
      (pickBest (matchesList pc kw)).1 := by
    have h2 : 0 < (pickBest (matchesList pc kw)).2 := h
    simp only [pattern_based_screening]
    rw [if_pos h2]
  rw [hdt]
  simp only [bestScore]
  rw [Prod.mk.eta]
  exact h3

theorem c10_witness :
    0 < bestScore c10_pc c10_kw ∧
    (matchesList c10_pc c10_kw).find? (fun x => x.2 == bestScore c10_pc c10_kw) =
      some ((pattern_based_screening c10_pc c10_kw).detected_tool, bestScore c10_pc c10_kw) ∧
    (pattern_based_screening c10_pc c10_kw).detected_tool = "chef" :=
  ⟨by decide, c10_tie_goes_to_table_order c10_pc c10_kw (by decide), by decide⟩

/-! ## Parser lemmas: section flushing and accumulation -/

theorem populate_ne_convertible (r : ClassificationResult) (sec : SectionId)
    (content : List String) (h : sec ≠ SectionId.convertible) :
    (populate_result_section r sec content).convertible = r.convertible := by
  cases content with
  | nil => rfl
  | cons c0 cs =>
    cases sec
    case convertible => exact absurd rfl h
    all_goals rfl

theorem parseLoop_convertible (ls : List String) :
    ∀ (cur : Option SectionId) (content : List String) (r : ClassificationResult),
      (∀ l ∈ ls, identify_section_type l ≠ some SectionId.convertible) →
      cur ≠ some SectionId.convertible →
      (parseLoop ls cur content r).convertible = r.convertible := by
  induction ls with
  | nil =>
    intro cur content r _ hcur
    cases cur with
    | none => rfl
    | some s =>
      exact populate_ne_convertible r s content (fun h => hcur (by rw [h]))
  | cons line rest ih =>
    intro cur content r hall hcur
    have hline : identify_section_type line ≠ some SectionId.convertible :=
      hall line (List.mem_cons_self line rest)
    have hrest : ∀ l ∈ rest, identify_section_type l ≠ some SectionId.convertible :=
      fun l hl => hall l (List.mem_cons_of_mem line hl)
    cases hid : identify_section_type line with
    | some st =>
      have hst : some st ≠ some SectionId.convertible := by
        rw [← hid]
        exact hline
      simp only [parseLoop, hid]
      rw [ih (some st) [extract_line_value line] _ hrest hst]
      cases cur with
      | none => rfl
      | some s =>
        exact populate_ne_convertible r s content (fun h => hcur (by rw [h]))
    | none =>
      simp only [parseLoop, hid]
      cases cur with
      | some s => exact ih (some s) (content ++ [line]) r hrest hcur
      | none => exact ih none content r hrest hcur

theorem parseLoop_accumulate (ls : List String) :
    ∀ (sec : SectionId) (content : List String) (r : ClassificationResult),
      (∀ l ∈ ls, identify_section_type l = none) →
      parseLoop ls (some sec) content r = populate_result_section r sec (content ++ ls) := by
  induction ls with
  | nil =>
    intro sec content r _
    simp [parseLoop]
  | cons l rest ih =>
    intro sec content r h
    have hl : identify_section_type l = none := h l (List.mem_cons_self l rest)
    have hrest : ∀ x ∈ rest, identify_section_type x = none :=
      fun x hx => h x (List.mem_cons_of_mem l hx)
    simp only [parseLoop, hl]
    rw [ih sec (content ++ [l]) r hrest]
    simp

/-! ## C2: the default of a missing Convertible section -/

/-- C2 counterexample: for the reply `"Summary: hello"`, no line carries the
Convertible label, yet the parsed result has `convertible = true` (the
dataclass default), not `false` as the claim states. -/
theorem c2_counterexample :
    (∀ l ∈ linesOf "Summary: hello",
        identify_section_type l ≠ some SectionId.convertible) ∧
    (format_agent_response "Summary: hello").convertible = true := by
  decide

/-- C2 amended: when no reply line is identified as the Convertible section,
the parsed `ClassificationResult` keeps the dataclass default
`convertible = true` (not `false`). -/
theorem c2_amended_missing_convertible_defaults_true (raw : String)
    (h : ∀ l ∈ linesOf raw, identify_section_type l ≠ some SectionId.convertible) :
    (format_agent_response raw).convertible = true := by
  unfold format_agent_response
  rw [parseLoop_convertible (linesOf raw) none [] defaultClassificationResult h
    (by simp)]
  rfl

theorem c2_witness :
    (∀ l ∈ linesOf "Summary: service installation",
        identify_section_type l ≠ some SectionId.convertible) ∧
    (format_agent_response "Summary: service installation").convertible = true :=
  ⟨by decide, c2_amended_missing_convertible_defaults_true _ (by decide)⟩

/-! ## C4: multi-line Complexity Level sections -/

/-- C4 counterexample: a Complexity Level section that accumulates two lines
produces their space-joined concatenation, not the first line only. -/
theorem c4_counterexample :
    (format_agent_response "Complexity Level: High\nbecause of nested loops").complexity_level =
      "High because of nested loops" ∧
    (format_agent_response "Complexity Level: High\nbecause of nested loops").complexity_level ≠
      "High" := by
  decide

/-- C4 amended: a Complexity Level section is a free-text section — all its
accumulated lines are joined with single spaces (and stripped); only the
classification section keeps its first line alone. -/
theorem c4_amended_complexity_joins_all_lines (raw line : String) (extras : List String)
    (hsplit : linesOf raw = line :: extras)
    (hline : identify_section_type line = some SectionId.complexity_level)
    (hex : ∀ l ∈ extras, identify_section_type l = none) :
    (format_agent_response raw).complexity_level =
      pyStrip (joinSep " " (extract_line_value line :: extras)) := by
  unfold format_agent_response
  rw [hsplit]
  simp only [parseLoop, hline]
  rw [parseLoop_accumulate extras SectionId.complexity_level [extract_line_value line]
    defaultClassificationResult hex]
  rfl

theorem c4_witness :
    (format_agent_response "Complexity Level: High\nvery high risk").complexity_level =
      pyStrip (joinSep " " (extract_line_value "Complexity Level: High" :: ["very high risk"])) ∧
    pyStrip (joinSep " " (extract_line_value "Complexity Level: High" :: ["very high risk"])) =
      "High very high risk" :=
  ⟨c4_amended_complexity_joins_all_lines _ _ _ (by decide) (by decide) (by decide), by decide⟩

theorem hasWordYesAux_iff (l : List Char) :
    ∀ prev, hasWordYesAux prev l = true ↔ AuxOcc prev l := by
  induction l with
  | nil =>
    intro prev
    constructor
    · intro h
      simp [hasWordYesAux] at h
    · rintro ⟨pre, c1, c2, c3, post, hl, -, -, -, -, -⟩
      have := congrArg List.length hl
      simp at this
      omega
  | cons c rest ih =>
    intro prev
    rcases rest with - | ⟨e, rest1⟩
    · constructor
      · intro h
        simp [hasWordYesAux] at h
      · rintro ⟨pre, c1, c2, c3, post, hl, -, -, -, -, -⟩
        have := congrArg List.length hl
        simp at this
        omega
    · rcases rest1 with - | ⟨s, rest2⟩
      · constructor
        · intro h
          simp [hasWordYesAux] at h
        · rintro ⟨pre, c1, c2, c3, post, hl, -, -, -, -, -⟩
          have := congrArg List.length hl
          simp at this
          omega
      · have hunf : hasWordYesAux prev (c :: e :: s :: rest2) =
            ((c.toLower == 'y' && e.toLower == 'e' && s.toLower == 's' &&
              boundaryOkB prev && headBoundaryOkB rest2) ||
              hasWordYesAux (some c) (e :: s :: rest2)) := rfl
        constructor
        · intro h
          rw [hunf, Bool.or_eq_true] at h
          rcases h with hm | hr
          · simp only [Bool.and_eq_true, beq_iff_eq] at hm
            obtain ⟨⟨⟨⟨h1, h2⟩, h3⟩, h4⟩, h5⟩ := hm
            refine ⟨[], c, e, s, rest2, rfl, h1, h2, h3, Or.inl ⟨rfl, ?_⟩, ?_⟩
            · cases prev with
              | none => trivial
              | some p =>
                show isWordChar p = false
                simpa [boundaryOkB] using h4
            · cases rest2 with
              | nil => exact Or.inl rfl
              | cons n post0 =>
                refine Or.inr ⟨n, post0, rfl, ?_⟩
                simpa [headBoundaryOkB] using h5
          · obtain ⟨pre, c1, c2, c3, post, hl, h1, h2, h3, hpre, hpost⟩ :=
              (ih (some c)).mp hr
            refine ⟨c :: pre, c1, c2, c3, post, by rw [hl]; rfl, h1, h2, h3, ?_, hpost⟩
            rcases hpre with ⟨rfl, hok⟩ | ⟨pre0, p, rfl, hw⟩
            · exact Or.inr ⟨[], c, rfl, hok⟩
            · exact Or.inr ⟨c :: pre0, p, rfl, hw⟩
        · rintro ⟨pre, c1, c2, c3, post, hl, h1, h2, h3, hpre, hpost⟩
          rcases pre with - | ⟨a, pre'⟩
          · obtain ⟨rfl, rfl, rfl, rfl⟩ : c1 = c ∧ c2 = e ∧ c3 = s ∧ post = rest2 := by
              have := hl.symm
              simp only [List.nil_append, List.cons.injEq] at this
              exact ⟨this.1, this.2.1, this.2.2.1, this.2.2.2⟩
            rw [hunf, Bool.or_eq_true]
            left
            simp only [Bool.and_eq_true, beq_iff_eq]
            refine ⟨⟨⟨⟨h1, h2⟩, h3⟩, ?_⟩, ?_⟩
            · cases prev with
              | none => rfl
              | some p =>
                rcases hpre with ⟨-, hok⟩ | ⟨pre0, q, hq, -⟩
                · have hok2 : isWordChar p = false := hok
                  simp [boundaryOkB, hok2]
                · exact absurd hq.symm (by simp)
            · rcases hpost with rfl | ⟨n, post0, rfl, hw⟩
              · rfl
              · simp [headBoundaryOkB, hw]
          · have hc : c = a ∧ e :: s :: rest2 = pre' ++ c1 :: c2 :: c3 :: post := by
              have := hl
              simp only [List.cons_append, List.cons.injEq] at this
              exact this
            rw [hunf, Bool.or_eq_true]
            right
            apply (ih (some c)).mpr
            refine ⟨pre', c1, c2, c3, post, hc.2, h1, h2, h3, ?_, hpost⟩
            rcases hpre with ⟨habs, -⟩ | ⟨pre0, p, hp, hw⟩
            · exact absurd habs (List.cons_ne_nil a pre')
            · rcases pre0 with - | ⟨b, pre0'⟩
              · have hap : a = p ∧ pre' = [] := by
                  have := hp
                  simp only [List.nil_append, List.cons.injEq] at this
                  exact this
                refine Or.inl ⟨hap.2, ?_⟩
                show isWordChar c = false
                rw [hc.1, hap.1]
                exact hw
              · have hab : a = b ∧ pre' = pre0' ++ [p] := by
                  have := hp
                  simp only [List.cons_append, List.cons.injEq] at this
                  exact this
                exact Or.inr ⟨pre0', p, hab.2, hw⟩

theorem auxOcc_none_iff (l : List Char) : AuxOcc none l ↔ WordYesOcc l := by
  constructor
  · rintro ⟨pre, c1, c2, c3, post, hl, h1, h2, h3, hpre, hpost⟩
    refine ⟨pre, c1, c2, c3, post, hl, h1, h2, h3, ?_, hpost⟩
    rcases hpre with ⟨h, -⟩ | h
    · exact Or.inl h
    · exact Or.inr h
  · rintro ⟨pre, c1, c2, c3, post, hl, h1, h2, h3, hpre, hpost⟩
    refine ⟨pre, c1, c2, c3, post, hl, h1, h2, h3, ?_, hpost⟩
    rcases hpre with h | h
    · exact Or.inl ⟨h, trivial⟩
    · exact Or.inr h

theorem parse_yes_no_iff (t : String) : parse_yes_no t = true ↔ WordYesOcc t.data := by
  unfold parse_yes_no
  split_ifs with h
  · constructor
    · intro hf
      cases hf
    · rintro ⟨pre, c1, c2, c3, post, hl, -, -, -, -, -⟩
      rw [h] at hl
      have := congrArg List.length hl
      simp at this
      omega
  · rw [hasWordYesAux_iff t.data none, auxOcc_none_iff]

/-- C3 counterexample: on the accumulated text `"true"` the canonical
first-token rule answers affirmative but the implemented parser answers
negative, and on `"no, but yes anyway"` the implemented parser answers
affirmative while the canonical rule answers negative. -/
theorem c3_counterexample :
    parse_yes_no "true" = false ∧ canonical_yes_no "true" = true ∧
    parse_yes_no "no, but yes anyway" = true ∧
    canonical_yes_no "no, but yes anyway" = false := by
  decide

/-- C3 amended: the parser decides the Convertible flag by searching the
lower-cased joined section text for `yes` as a whole word (word-boundary
semantics, any position); `true` and `1` are not affirmative, and `yes`
need not be the first token. -/
theorem c3_amended_word_yes_search (r : ClassificationResult) (c : String)
    (cs : List String) :
    ((populate_result_section r SectionId.convertible (c :: cs)).convertible = true ↔
      WordYesOcc (pyStrip (pyLower (joinSep " " (c :: cs)))).data) := by
  show parse_yes_no (pyStrip (pyLower (joinSep " " (c :: cs)))) = true ↔ _
  exact parse_yes_no_iff _

/-- C6: the classify operation rejects null, whitespace-only, and short
inputs (trimmed length at most 5) with the invalid-input failure, before
the external collaborator is consulted (zero oracle calls); every input of
trimmed length strictly greater than 5 passes validation. -/
theorem c6_input_validation (screen : String → PatternAnalysis) (oracle : String → String)
    (code : Option String) :
    (is_valid_input code = false ↔
      (code = none ∨ ∃ s, code = some s ∧ strLen (pyStrip s) ≤ 5)) ∧
    (is_valid_input code = false →
      classify_and_summarize screen oracle code =
        { outcome := ClassifyOutcome.invalidInput, oracleCalls := 0, promptSent := none }) ∧
    (is_valid_input code = true →
      (classify_and_summarize screen oracle code).outcome ≠ ClassifyOutcome.invalidInput) := by
  refine ⟨?_, ?_, ?_⟩
  · cases code with
    | none => simp [is_valid_input]
    | some s =>
      constructor
      · intro h
        right
        refine ⟨s, rfl, ?_⟩
        by_contra hlen
        push_neg at hlen
        have hs1 : s ≠ "" := by
          intro he
          rw [he] at hlen
          exact absurd hlen (by decide)
        have hs2 : pyStrip s ≠ "" := by
          intro he
          rw [he] at hlen
          exact absurd hlen (by decide)
        have hvalid : is_valid_input (some s) = true := by
          simp [is_valid_input, hs1, hs2, hlen]
        rw [hvalid] at h
        cases h
      · rintro (h | ⟨t, ht, hlen⟩)
        · cases h
        · obtain rfl : s = t := Option.some.inj ht
          unfold is_valid_input
          have hd : decide (5 < strLen (pyStrip s)) = false := decide_eq_false (by omega)
          simp [hd]
  · intro h
    unfold classify_and_summarize
    rw [h]
    rfl
  · intro h
    unfold classify_and_summarize
    rw [h]
    simp

theorem c6_witness :
    (is_valid_input (some "ab") = false ∧
      classify_and_summarize constScreen constOracle (some "ab") =
        { outcome := ClassifyOutcome.invalidInput, oracleCalls := 0, promptSent := none }) ∧
    (is_valid_input (some "   ") = false ∧
      classify_and_summarize constScreen constOracle (some "   ") =
        { outcome := ClassifyOutcome.invalidInput, oracleCalls := 0, promptSent := none }) ∧
    (is_valid_input (some "abcdef") = true ∧
      (classify_and_summarize constScreen constOracle (some "abcdef")).outcome ≠
        ClassifyOutcome.invalidInput) :=
  ⟨⟨by decide, (c6_input_validation constScreen constOracle (some "ab")).2.1 (by decide)⟩,
   ⟨by decide, (c6_input_validation constScreen constOracle (some "   ")).2.1 (by decide)⟩,
   ⟨by decide, (c6_input_validation constScreen constOracle (some "abcdef")).2.2 (by decide)⟩⟩

/-! ## C7: performance metrics -/

theorem lookup_mem_values (l : List (String × ℚ)) (s : String) (v : ℚ)
    (hv : l.lookup s = some v) : v ∈ l.map Prod.snd := by
  induction l with
  | nil => cases hv
  | cons h t ih =>
    rw [List.lookup_cons] at hv
    cases hb : (s == h.1) with
    | true =>
      rw [hb] at hv
      have hv2 : h.2 = v := by simpa using hv
      simp [← hv2]
    | false =>
      rw [hb] at hv
      simp only [List.map_cons, List.mem_cons]
      exact Or.inr (ih hv)

theorem manualEstimates_pos (s : String) :
    0 < (manualEstimates.lookup s).getD 300000 := by
  cases hv : manualEstimates.lookup s with
  | none => norm_num
  | some v =>
    have hvmem := lookup_mem_values manualEstimates s v hv
    have hall : ∀ x ∈ manualEstimates.map Prod.snd, (0 : ℚ) < x := by decide
    simpa using hall v hvmem

/-- C7: `manual_estimate_ms` is the lower-cased classification's table entry
(with the `unknown` baseline 300000 as default); `duration_ms` is rounded to
2 decimals; `speedup` is `manual_estimate_ms / duration_ms` rounded to 2
decimals when `duration_ms > 0`, and null when `duration_ms = 0`. -/
theorem c7_metrics (classification : String) (duration_ms : ℚ) :
    ((add_performance_metrics classification duration_ms).manual_estimate_ms =
      (manualEstimates.lookup (pyLower classification)).getD 300000) ∧
    ((add_performance_metrics classification duration_ms).duration_ms =
      roundTo 2 duration_ms) ∧
    (0 < duration_ms →
      (add_performance_metrics classification duration_ms).speedup =
        some (roundTo 2
          (((manualEstimates.lookup (pyLower classification)).getD 300000) / duration_ms))) ∧
    (duration_ms = 0 →
      (add_performance_metrics classification duration_ms).speedup = none) := by
  refine ⟨rfl, rfl, ?_, ?_⟩
  · intro hd
    have hm := manualEstimates_pos (pyLower classification)
    have hne : (manualEstimates.lookup (pyLower classification)).getD 300000 / duration_ms ≠ 0 :=
      ne_of_gt (div_pos hm hd)
    simp only [add_performance_metrics, if_pos hd, qdiv_eq]
    rw [if_neg hne]
  · intro hd
    simp [add_performance_metrics, hd]

theorem c7_witness :
    (add_performance_metrics "chef" 1500).manual_estimate_ms = 420000 ∧
    (add_performance_metrics "chef" 1500).speedup = some 280 ∧
    (add_performance_metrics "chef" 0).speedup = none := by
  refine ⟨by decide, ?_, (c7_metrics "chef" 0).2.2.2 rfl⟩
  have h := (c7_metrics "chef" 1500).2.2.1 (by norm_num)
  have hm : (manualEstimates.lookup (pyLower "chef")).getD 300000 = (420000 : ℚ) := by decide
  rw [hm] at h
  have hq : (420000 : ℚ) / 1500 = 280 := by norm_num
  rw [hq] at h
  rw [h]
  decide

/-! ## C1: the override policy of the convertibility resolver -/

theorem mkRat_7_10_eq : mkRat 7 10 = (7 / 10 : ℚ) := by
  rw [Rat.mkRat_eq_div]
  norm_num

theorem mkRat_4_10_eq : mkRat 4 10 = (4 / 10 : ℚ) := by
  rw [Rat.mkRat_eq_div]
  norm_num

theorem mkRat_3_10_eq : mkRat 3 10 = (3 / 10 : ℚ) := by
  rw [Rat.mkRat_eq_div]
  norm_num

/-- C1 (amended): the override fires exactly when all four conditions hold
(`mkRat 7 10` is the 0.7 threshold); when it fires, the resolver flips
`convertible`, records the audit fields and appends the override reason to
`conversion_notes`; when it does not fire, `confidence_source` is set per
the 0.4 threshold and every other field is preserved — except
`pattern_analysis`, which is always replaced by the screener's analysis. -/
theorem c1_override_policy (pa : PatternAnalysis) (ai : ClassificationResult) :
    (ai.override_applied = false →
      ((make_intelligent_decision pa ai).override_applied = true ↔
        (mkRat 7 10 ≤ pa.confidence_score ∧ pa.likely_iac = true ∧ ai.convertible = false ∧
          pa.detected_tool ∈ overrideWhitelist))) ∧
    ((mkRat 7 10 ≤ pa.confidence_score ∧ pa.likely_iac = true ∧ ai.convertible = false ∧
        pa.detected_tool ∈ overrideWhitelist) →
      make_intelligent_decision pa ai =
        { ai with convertible := true
                  override_applied := true
                  override_reason := overrideReasonText pa
                  original_ai_decision := some false
                  conversion_notes :=
                    ai.conversion_notes ++ " [Override Applied: " ++ overrideReasonText pa ++ "]"
                  confidence_source := "pattern_override"
                  pattern_analysis := pa }) ∧
    (¬ (mkRat 7 10 ≤ pa.confidence_score ∧ pa.likely_iac = true ∧ ai.convertible = false ∧
        pa.detected_tool ∈ overrideWhitelist) →
      make_intelligent_decision pa ai =
        { ai with confidence_source :=
                    if mkRat 4 10 ≤ pa.confidence_score then "ai_with_pattern_context"
                    else "ai_only"
                  pattern_analysis := pa }) := by
  refine ⟨?_, ?_, ?_⟩
  · intro h0
    constructor
    · intro h1
      by_contra hf
      unfold make_intelligent_decision at h1
      rw [if_neg hf] at h1
      split_ifs at h1 <;> simp_all
    · intro hf
      unfold make_intelligent_decision
      rw [if_pos hf]
  · intro hf
    unfold make_intelligent_decision
    rw [if_pos hf]
  · intro hf
    unfold make_intelligent_decision
    rw [if_neg hf]
    split_ifs <;> rfl

theorem c1_witness :
    (make_intelligent_decision c1_fire_pa c1_ai).convertible = true ∧
    (make_intelligent_decision c1_fire_pa c1_ai).override_applied = true ∧
    (make_intelligent_decision c1_fire_pa c1_ai).confidence_source = "pattern_override" ∧
    (make_intelligent_decision c1_fire_pa c1_ai).original_ai_decision = some false ∧
    (make_intelligent_decision c1_fire_pa c1_ai).conversion_notes =
      c1_ai.conversion_notes ++ " [Override Applied: " ++ overrideReasonText c1_fire_pa ++ "]" := by
  have h := (c1_override_policy c1_fire_pa c1_ai).2.1 (by decide)
  rw [h]
  exact ⟨rfl, rfl, rfl, rfl, rfl⟩

/-- C1 counterexample: with confidence 0.5 the override does not fire and
`confidence_source` is set per branch 2, but the resolver still changes a
field other than `confidence_source`: it overwrites `pattern_analysis` with
the screener's analysis, so "no other field changed" is false. -/
theorem c1_counterexample :
    ¬ (mkRat 7 10 ≤ c1_mid_pa.confidence_score) ∧
    (make_intelligent_decision c1_mid_pa defaultClassificationResult).override_applied = false ∧
    (make_intelligent_decision c1_mid_pa defaultClassificationResult).confidence_source =
      "ai_with_pattern_context" ∧
    (make_intelligent_decision c1_mid_pa defaultClassificationResult).pattern_analysis ≠
      defaultClassificationResult.pattern_analysis := by
  decide

/-! ## C8: batch classification -/

theorem batchAux_spec (screen : String → PatternAnalysis) (oracle : String → String)
    (snippets : List (Option String)) :
    ∀ start : ℕ,
      (batchAux screen oracle start snippets).length = snippets.length ∧
      ∀ i (hi : i < snippets.length),
        (batchAux screen oracle start snippets)[i]? =
          some { get_json_result screen oracle (snippets.get ⟨i, hi⟩) with
                   batch_index := some (start + i) } := by
  induction snippets with
  | nil =>
    intro start
    refine ⟨rfl, ?_⟩
    intro i hi
    cases hi
  | cons c rest ih =>
    intro start
    constructor
    · simp [batchAux, (ih (start + 1)).1]
    · intro i hi
      cases i with
      | zero =>
        simp [batchAux, List.get]
      | succ j =>
        have hj : j < rest.length := Nat.lt_of_succ_lt_succ hi
        have := (ih (start + 1)).2 j hj
        simp only [batchAux, List.getElem?_cons_succ]
        rw [this]
        have harith : start + 1 + j = start + (j + 1) := by omega
        rw [harith]
        rfl

/-- C8: `batch_classify` returns exactly one envelope per snippet, in input
order, each tagged with its index, and the envelope at position `i` is the
single-item result of snippet `i` alone — so a failing snippet yields a
failure envelope at its own position and cannot affect any other entry. -/
theorem c8_batch_isolation (screen : String → PatternAnalysis) (oracle : String → String)
    (snippets : List (Option String)) :
    (batch_classify screen oracle snippets).length = snippets.length ∧
    ∀ i (hi : i < snippets.length),
      (batch_classify screen oracle snippets)[i]? =
        some { get_json_result screen oracle (snippets.get ⟨i, hi⟩) with
                 batch_index := some i } := by
  have h := batchAux_spec screen oracle snippets 0
  refine ⟨h.1, ?_⟩
  intro i hi
  have := h.2 i hi
  simpa using this

set_option maxRecDepth 20000 in
theorem c8_witness :
    (batch_classify constScreen constOracle c8_snips).length = 3 ∧
    ((batch_classify constScreen constOracle c8_snips)[0]?).map Envelope.success =
      some true ∧
    ((batch_classify constScreen constOracle c8_snips)[1]?).map Envelope.success =
      some false ∧
    ((batch_classify constScreen constOracle c8_snips)[1]?).map Envelope.error_type =
      some (some "ClassificationError") ∧
    ((batch_classify constScreen constOracle c8_snips)[2]?).map Envelope.success =
      some true := by
  have h := c8_batch_isolation constScreen constOracle c8_snips
  refine ⟨h.1, ?_, ?_, ?_, ?_⟩
  · rw [h.2 0 (by decide)]
    decide
  · rw [h.2 1 (by decide)]
    decide
  · rw [h.2 1 (by decide)]
    decide
  · rw [h.2 2 (by decide)]
    decide

/-! ## C9: prompt selection and the enhanced context block -/

/-- C9 (amended): for screener confidence at or above the 0.3 threshold
(`mkRat 3 10`) the enhanced instruction is submitted, below it the standard
instruction; the enhanced instruction's context block embeds the detected
tool's upper-cased name, its confidence formatted to two decimals and the
up to 3 strongest indicator labels only when the detected tool has a
canonical-examples entry (chef, puppet, terraform); for every other
detected tool the context block is empty, so the enhanced instruction
carries no tool hint. -/
theorem c9_prompt_selection (pa : PatternAnalysis) (c : String) :
    (build_enhanced_prompt c pa =
      contextBlock pa ++ "\n\nAnalyze this code for Ansible conversion potential:\n\n<CODE>\n" ++
        c ++ "\n</CODE>" ++ enhancedTail) ∧
    (pa.detected_tool ∈ (["chef", "puppet", "terraform"] : List String) →
      ∃ ex, toolExamples.lookup pa.detected_tool = some ex ∧
        contextBlock pa = "\nDETECTED TOOL: " ++ pyUpper pa.detected_tool ++ " (confidence: " ++
          fmt2 pa.confidence_score ++ ")\nPattern indicators found: " ++
          joinSep ", " (pa.strongest_indicators.take 3) ++ "\n\n" ++ ex ++ "\n") ∧
    (pa.detected_tool ∉ (["chef", "puppet", "terraform"] : List String) →
      contextBlock pa = "") ∧
    (∀ (screen : String → PatternAnalysis) (oracle : String → String) (s : String),
      is_valid_input (some s) = true →
      ((mkRat 3 10 ≤ (screen s).confidence_score →
         (classify_and_summarize screen oracle (some s)).promptSent =
           some (build_enhanced_prompt s (screen s))) ∧
       (¬ mkRat 3 10 ≤ (screen s).confidence_score →
         (classify_and_summarize screen oracle (some s)).promptSent =
           some (build_standard_prompt s)))) := by
  refine ⟨rfl, ?_, ?_, ?_⟩
  · intro h
    simp only [List.mem_cons, List.not_mem_nil, or_false] at h
    rcases h with h | h | h
    · refine ⟨chefExampleText, ?_, ?_⟩
      · rw [h]
        rfl
      · unfold contextBlock
        rw [h]
        rfl
    · refine ⟨puppetExampleText, ?_, ?_⟩
      · rw [h]
        rfl
      · unfold contextBlock
        rw [h]
        rfl
    · refine ⟨terraformExampleText, ?_, ?_⟩
      · rw [h]
        rfl
      · unfold contextBlock
        rw [h]
        rfl
  · intro h
    simp only [List.mem_cons, List.not_mem_nil, or_false, not_or] at h
    obtain ⟨h1, h2, h3⟩ := h
    have e1 : (pa.detected_tool == ("chef" : String)) = false :=
      beq_eq_false_iff_ne.mpr h1
    have e2 : (pa.detected_tool == ("puppet" : String)) = false :=
      beq_eq_false_iff_ne.mpr h2
    have e3 : (pa.detected_tool == ("terraform" : String)) = false :=
      beq_eq_false_iff_ne.mpr h3
    have hnone : toolExamples.lookup pa.detected_tool = none := by
      simp [toolExamples, List.lookup, e1, e2, e3]
    unfold contextBlock
    rw [hnone]
  · intro screen oracle s hvalid
    constructor
    · intro hconf
      simp [classify_and_summarize, hvalid, hconf]
    · intro hconf
      simp [classify_and_summarize, hvalid, hconf]

set_option maxRecDepth 80000 in
/-- C9 counterexample: with detected tool `ansible` and confidence 0.73
(at or above the 0.3 threshold) the enhanced instruction is built with an
empty context block: it is bit-for-bit identical to the instruction for a
completely different analysis, and contains no digit `0`, hence embeds
neither the formatted confidence `0.73` nor any indicator label. -/
theorem c9_counterexample :
    mkRat 3 10 ≤ c9_pa1.confidence_score ∧
    contextBlock c9_pa1 = "" ∧
    build_enhanced_prompt "hosts: web" c9_pa1 = build_enhanced_prompt "hosts: web" c9_pa2 ∧
    ('0' ∈ (build_enhanced_prompt "hosts: web" c9_pa1).data) = false := by
  decide

theorem c9_witness :
    (∃ ex, toolExamples.lookup c9_chef_pa.detected_tool = some ex ∧
      contextBlock c9_chef_pa = "\nDETECTED TOOL: " ++ pyUpper c9_chef_pa.detected_tool ++
        " (confidence: " ++ fmt2 c9_chef_pa.confidence_score ++
        ")\nPattern indicators found: " ++
        joinSep ", " (c9_chef_pa.strongest_indicators.take 3) ++ "\n\n" ++ ex ++ "\n") ∧
    (classify_and_summarize chefScreen constOracle (some "cookbook test")).promptSent =
      some (build_enhanced_prompt "cookbook test" (chefScreen "cookbook test")) :=
  ⟨(c9_prompt_selection c9_chef_pa "x").2.1 (by decide),
   ((c9_prompt_selection c9_chef_pa "x").2.2.2 chefScreen constOracle "cookbook test"
      (by decide)).1 (by decide)⟩
